import Mathlib

/-!
Verification of the data-cleaning and pipeline logic of the
`nvidia-gcp-samples` notebooks.

The first notebook (`bigquery_dataproc_dask_xgboost.ipynb`) defines a
column-cleaning function `clean(df_part, remap, must_haves)`, a static
rename mapping `remap`, a schema dictionary `must_haves`, a list of filter
fragments `query_frags`, and a linear train/evaluate pipeline.  The second
notebook (`triton_inference.ipynb`) performs a fixed sequence of Vertex AI
SDK calls.

We shallowly embed dataframes as lists of named, dtyped columns of cell
values.  Missing values (None / NaN / NaT) are the single constructor
`Value.null`; numeric cells are exact integers and rationals.  The
library-supplied parsers that `astype` uses on string cells (string to
float, string to datetime) are passed as explicit function parameters, so
every theorem holds for every possible parser.  Column names are assumed
unique within a dataframe (as the cudf dataframes of the notebook require);
the well-formedness hypothesis `Nodup` on the post-rename name list
expresses this where it matters.
-/

/-- The pandas/cudf dtypes that occur in the notebook's pipeline. -/
inductive Dtype
  | object
  | int64
  | int32
  | float64
  | float32
  | datetime64ms
deriving DecidableEq, Repr

/-- `str(dtype)`: the string form of a dtype, as Python renders it. -/
def dtypeStr : Dtype → String
  | Dtype.object => "object"
  | Dtype.int64 => "int64"
  | Dtype.int32 => "int32"
  | Dtype.float64 => "float64"
  | Dtype.float32 => "float32"
  | Dtype.datetime64ms => "datetime64[ms]"

/-- Does `pat` occur as a contiguous sublist?  (Structural recursion, so
concrete instances reduce inside the kernel.) -/
def containsSubAux (pat : List Char) : List Char → Bool
  | [] => pat.isEmpty
  | c :: rest => pat.isPrefixOf (c :: rest) || containsSubAux pat rest

/-- Python's substring test `sub in s` (for nonempty `sub`). -/
def pyContains (sub s : String) : Bool := containsSubAux sub.data s.data

/-- A dataframe cell.  `null` stands for any missing value
(None / NaN / NaT); numbers are exact (integers and rationals). -/
inductive Value
  | null
  | int (n : Int)
  | float (q : Rat)
  | str (s : String)
  | datetime (t : Int)
deriving DecidableEq, Repr

/-- One named column of a dataframe: its label, dtype, and cells. -/
structure Column where
  name : String
  dtype : Dtype
  vals : List Value
deriving DecidableEq, Repr

/-- A dataframe: a list of named columns (row-aligned). -/
structure DataFrame where
  cols : List Column
deriving DecidableEq, Repr

/-- Python `str.strip()` on the character list: drop leading and trailing
whitespace. -/
def stripChars (l : List Char) : List Char :=
  ((l.dropWhile Char.isWhitespace).reverse.dropWhile Char.isWhitespace).reverse

/-- `col.strip().lower()`: the name normalization `clean` applies first
(ASCII lowering, which covers every label in the dataset). -/
def normalizeName (s : String) : String :=
  ⟨(stripChars s.data).map Char.toLower⟩

/-- `df.rename(columns=m)`: map a label through the dict, default to itself. -/
def applyRemap (m : List (String × String)) (s : String) : String :=
  (m.lookup s).getD s

/-- The two rename steps at the top of `clean`: normalize every label, then
apply the supplied `remap` dict. -/
def renameCols (remap : List (String × String)) (df : DataFrame) : DataFrame :=
  ⟨df.cols.map fun c => { c with name := applyRemap remap (normalizeName c.name) }⟩

/-- The notebook's static rename mapping `remap`. -/
def remap : List (String × String) :=
  [("tpep_pickup_datetime", "pickup_datetime"),
   ("tpep_dropoff_datetime", "dropoff_datetime"),
   ("ratecodeid", "rate_code")]

/-- The notebook's `must_haves` dict: expected column names with their
dtype strings. -/
def must_haves : List (String × String) :=
  [("pickup_datetime", "datetime64[ms]"),
   ("dropoff_datetime", "datetime64[ms]"),
   ("passenger_count", "int32"),
   ("trip_distance", "float32"),
   ("pickup_longitude", "float32"),
   ("pickup_latitude", "float32"),
   ("rate_code", "int32"),
   ("dropoff_longitude", "float32"),
   ("dropoff_latitude", "float32"),
   ("fare_amount", "float32")]

/-- The two column names given the special datetime cast inside `clean`. -/
def dtCols : List String := ["pickup_datetime", "dropoff_datetime"]

/-- Wrap an integer into int32 range, as numpy's downcast does. -/
def toInt32 (n : Int) : Int := (n + 2 ^ 31) % 2 ^ 32 - 2 ^ 31

/-- Truncate a rational toward zero, as `astype` of a float to int does. -/
def ratTrunc (q : Rat) : Int := if q < 0 then ⌈q⌉ else ⌊q⌋

/-- `astype('datetime64[ms]')` on a cell.  String cells are parsed by the
library; the parser is the explicit parameter `pdt`.  Missing stays
missing (NaT). -/
def castDatetimeVal (pdt : String → Int) : Value → Value
  | Value.null => Value.null
  | Value.str s => Value.datetime (pdt s)
  | Value.int n => Value.datetime n
  | Value.float q => Value.datetime (ratTrunc q)
  | Value.datetime t => Value.datetime t

/-- `astype('float32')` on a cell.  String cells are parsed by the library;
the parser is the explicit parameter `pf`.  Missing stays missing (NaN). -/
def castFloatVal (pf : String → Rat) : Value → Value
  | Value.null => Value.null
  | Value.str s => Value.float (pf s)
  | Value.int n => Value.float n
  | Value.float q => Value.float q
  | Value.datetime t => Value.float t

/-- `astype('int32')` on a cell of a numeric column.  Missing stays
missing; integers wrap to 32 bits. -/
def castInt32Val : Value → Value
  | Value.null => Value.null
  | Value.int n => Value.int (toInt32 n)
  | Value.float q => Value.int (toInt32 (ratTrunc q))
  | Value.str s => Value.str s
  | Value.datetime t => Value.int (toInt32 t)

/-- `fillna(-1)` on a cell: a missing value becomes the scalar `-1` coerced
to the column's dtype; anything else is unchanged. -/
def fillNeg1Val (dt : Dtype) (v : Value) : Value :=
  if v = Value.null then
    match dt with
    | Dtype.int64 => Value.int (-1)
    | Dtype.int32 => Value.int (-1)
    | Dtype.float64 => Value.float (-1)
    | Dtype.float32 => Value.float (-1)
    | Dtype.datetime64ms => Value.datetime (-1)
    | Dtype.object => Value.float (-1)
  else v

/-- The datetime branch of `clean`:
`df_part[col] = df_part[col].astype('datetime64[ms]')`. -/
def datetimeCast (pdt : String → Int) (c : Column) : Column :=
  ⟨c.name, Dtype.datetime64ms, c.vals.map (castDatetimeVal pdt)⟩

/-- The string branch of `clean`:
`df_part[col] = df_part[col].astype('float32')`. -/
def floatCast (pf : String → Rat) (c : Column) : Column :=
  ⟨c.name, Dtype.float32, c.vals.map (castFloatVal pf)⟩

/-- The numeric branch of `clean`: downcast `int` dtypes to int32 and
`float` dtypes to float32 (the two `if`s are sequential, the second sees
the dtype left by the first), then `fillna(-1)`. -/
def numericClean (pf : String → Rat) (c : Column) : Column :=
  let c1 := if pyContains "int" (dtypeStr c.dtype) then
      ⟨c.name, Dtype.int32, c.vals.map castInt32Val⟩ else c
  let c2 := if pyContains "float" (dtypeStr c1.dtype) then
      ⟨c1.name, Dtype.float32, c1.vals.map (castFloatVal pf)⟩ else c1
  ⟨c2.name, c2.dtype, c2.vals.map (fillNeg1Val c2.dtype)⟩

/-- `df.drop(col, axis=1)`: remove every column with that label. -/
def dropCol (df : DataFrame) (col : String) : DataFrame :=
  ⟨df.cols.filter fun c => c.name ≠ col⟩

/-- `df[col] = f(df[col])`: rewrite the column(s) with that label. -/
def mapCol (df : DataFrame) (col : String) (f : Column → Column) : DataFrame :=
  ⟨df.cols.map fun c => if c.name = col then f c else c⟩

/-- One iteration of the `for col in df_part.columns` loop in `clean`,
acting on the current dataframe. -/
def cleanStep (pf : String → Rat) (pdt : String → Int)
    (must_haves : List (String × String)) (df : DataFrame) (col : String) :
    DataFrame :=
  if col ∉ must_haves.map Prod.fst then dropCol df col
  else
    match df.cols.find? (fun c => c.name = col) with
    | none => df
    | some c =>
      if c.dtype = Dtype.object ∧ col ∈ dtCols then mapCol df col (datetimeCast pdt)
      else if c.dtype = Dtype.object then mapCol df col (floatCast pf)
      else mapCol df col (numericClean pf)

/-- The notebook's `clean(df_part, remap, must_haves)`: normalize and remap
the column labels, then run the per-column loop over the snapshot of the
renamed label list.  `pf` and `pdt` are the library parsers `astype` uses
on string cells. -/
def clean (pf : String → Rat) (pdt : String → Int) (df_part : DataFrame)
    (remap : List (String × String)) (must_haves : List (String × String)) :
    DataFrame :=
  let renamed := renameCols remap df_part
  (renamed.cols.map Column.name).foldl (cleanStep pf pdt must_haves) renamed

/-- The per-column action of `clean` on an already-renamed column: dropped
when its label is not a `must_haves` key, otherwise transformed by exactly
one of the three cast branches. -/
def cleanCol (pf : String → Rat) (pdt : String → Int)
    (must_haves : List (String × String)) (c : Column) : Option Column :=
  if c.name ∉ must_haves.map Prod.fst then none
  else if c.dtype = Dtype.object ∧ c.name ∈ dtCols then some (datetimeCast pdt c)
  else if c.dtype = Dtype.object then some (floatCast pf c)
  else some (numericClean pf c)

/-- Trivial parser stubs used only to instantiate theorems at concrete
inputs. -/
def pf0 : String → Rat := fun _ => 0

/-- Trivial datetime parser stub for concrete instantiations. -/
def pdt0 : String → Int := fun _ => 0

/-- The numeric content of a cell, when it has one. -/
def numVal : Value → Option Rat
  | Value.int n => some n
  | Value.float q => some q
  | _ => none

/-- A strict `>` comparison as `df.query` evaluates it: comparisons
against a missing or non-numeric cell are false. -/
def valGtB (v : Value) (q : Rat) : Bool :=
  match numVal v with
  | some x => decide (q < x)
  | none => false

/-- A strict `<` comparison as `df.query` evaluates it: comparisons
against a missing or non-numeric cell are false. -/
def valLtB (v : Value) (q : Rat) : Bool :=
  match numVal v with
  | some x => decide (x < q)
  | none => false

/-- The notebook's `query_frags` list: each fragment, read from a row
accessor (column name to cell value). -/
def query_frags : List ((String → Value) → Bool) :=
  [fun g => valGtB (g "fare_amount") 0 && valLtB (g "fare_amount") 500,
   fun g => valGtB (g "passenger_count") 0 && valLtB (g "passenger_count") 6,
   fun g => valGtB (g "pickup_longitude") (-75) && valLtB (g "pickup_longitude") (-73),
   fun g => valGtB (g "dropoff_longitude") (-75) && valLtB (g "dropoff_longitude") (-73),
   fun g => valGtB (g "pickup_latitude") 40 && valLtB (g "pickup_latitude") 42,
   fun g => valGtB (g "dropoff_latitude") 40 && valLtB (g "dropoff_latitude") 42]

/-- `' and '.join(query_frags)` applied to one row: the conjunction of all
fragments. -/
def queryPred (g : String → Value) : Bool := query_frags.all fun f => f g

/-- The cell in the (first) column labelled `name` at row `i`; missing
when the column or the row does not exist. -/
def getCell (df : DataFrame) (name : String) (i : Nat) : Value :=
  match df.cols.find? (fun c => c.name = name) with
  | some c => c.vals.getD i Value.null
  | none => Value.null

/-- The number of rows of the dataframe (the length of its first column). -/
def rowCount (df : DataFrame) : Nat :=
  match df.cols with
  | [] => 0
  | c :: _ => c.vals.length

/-- Does row `i` satisfy the query conjunction? -/
def keepRow (df : DataFrame) (i : Nat) : Bool :=
  queryPred fun n => getCell df n i

/-- The indices of the rows `taxi_df.query(' and '.join(query_frags))`
keeps, in order. -/
def survivingIdxs (df : DataFrame) : List Nat :=
  (List.range (rowCount df)).filter (keepRow df)

/-- `df.query(...)`: every column restricted to the surviving rows. -/
def queryDf (df : DataFrame) : DataFrame :=
  ⟨df.cols.map fun c =>
    ⟨c.name, c.dtype, (survivingIdxs df).map fun i => c.vals.getD i Value.null⟩⟩

/-- The cell is a number lying strictly between the two bounds. -/
def strictlyBetween (v : Value) (lo hi : Rat) : Prop :=
  ∃ q, numVal v = some q ∧ lo < q ∧ q < hi

/-- `persist` on a lazy collection does not change its contents. -/
def persist {α : Type} (a : α) : α := a

/-- The dataflow of notebook 1 from the `train_test_split` cell to the
construction of the two `DaskDMatrix` inputs, with `tts` standing for
`dask_ml`'s `train_test_split(X, y, train_size=0.80, random_state=42,
shuffle=True)` (returning `X_train, X_test, y_train, y_test`).  The cell
after the split reassigns all four names from `X.persist()` / `y.persist()`
exactly as the source does.  The result is the pair
`((X_train, y_train), (X_test, y_test))` handed to
`xgb.dask.DaskDMatrix`. -/
def nb1TrainTestData {α β : Type} (tts : α → β → α × α × β × β)
    (X : α) (y : β) : (α × β) × (α × β) :=
  let s := tts X y
  let X_train := s.1
  let X_test := s.2.1
  let y_train := s.2.2.1
  let y_test := s.2.2.2
  let X_train := persist X
  let X_test := persist X
  let y_train := persist y
  let y_test := persist y
  ((X_train, y_train), (X_test, y_test))

/-- An 80/20 split of ten-element lists, a concrete instance of the
`train_test_split` parameter. -/
def tts80 (X : List Nat) (y : List Nat) :
    List Nat × List Nat × List Nat × List Nat :=
  (X.take 8, X.drop 8, y.take 8, y.drop 8)

/-- The Vertex AI SDK operations notebook 2 performs. -/
inductive VertexStep
  | modelUpload
  | endpointCreate
  | modelDeploy
  | rawPredictRequest
deriving DecidableEq, Repr

/-- The order in which notebook 2's code cells perform the SDK calls:
`vertex_ai.Model.upload`, `vertex_ai.Endpoint.create`, `model.deploy`,
then the `curl` POST to the endpoint's `rawPredict` URL. -/
def notebook2Steps : List VertexStep :=
  [VertexStep.modelUpload, VertexStep.endpointCreate,
   VertexStep.modelDeploy, VertexStep.rawPredictRequest]

/-- The dataflow dependencies among notebook 2's steps: `model.deploy`
consumes the uploaded `model` and the created `endpoint`; the rawPredict
request addresses `endpoint.name` and needs the deployed model. -/
def stepDeps : VertexStep → List VertexStep
  | VertexStep.modelUpload => []
  | VertexStep.endpointCreate => []
  | VertexStep.modelDeploy => [VertexStep.modelUpload, VertexStep.endpointCreate]
  | VertexStep.rawPredictRequest => [VertexStep.endpointCreate, VertexStep.modelDeploy]

/-! ### Helper lemmas: the column loop is a single pass -/

theorem numericClean_name (pf : String → Rat) (c : Column) :
    (numericClean pf c).name = c.name := by
  simp only [numericClean]
  split <;> split <;> rfl

theorem cleanCol_name (pf : String → Rat) (pdt : String → Int)
    (mh : List (String × String)) (c c' : Column)
    (h : cleanCol pf pdt mh c = some c') : c'.name = c.name := by
  unfold cleanCol at h
  split at h
  · exact absurd h (by simp)
  · split at h
    · cases h; rfl
    · split at h
      · cases h; rfl
      · cases h; exact numericClean_name pf c

theorem cleanCol_mem_keys (pf : String → Rat) (pdt : String → Int)
    (mh : List (String × String)) (c c' : Column)
    (h : cleanCol pf pdt mh c = some c') : c.name ∈ mh.map Prod.fst := by
  unfold cleanCol at h
  split at h
  · exact absurd h (by simp)
  · rename_i hmem
    exact not_not.mp hmem

theorem find?_name_append (pre rest : List Column) (c : Column)
    (hpre : ∀ x ∈ pre, x.name ≠ c.name) :
    (pre ++ c :: rest).find? (fun x => x.name = c.name) = some c := by
  induction pre with
  | nil => simp [List.find?]
  | cons a t ih =>
      have ha : (decide (a.name = c.name)) = false := by
        simp [hpre a (List.mem_cons_self a t)]
      simp only [List.cons_append, List.find?, ha]
      exact ih fun x hx => hpre x (List.mem_cons_of_mem a hx)

theorem dropCol_append_single (pre rest : List Column) (c : Column)
    (hpre : ∀ x ∈ pre, x.name ≠ c.name) (hrest : ∀ x ∈ rest, x.name ≠ c.name) :
    dropCol ⟨pre ++ c :: rest⟩ c.name = ⟨pre ++ rest⟩ := by
  unfold dropCol
  congr 1
  rw [List.filter_append]
  have h1 : pre.filter (fun x => x.name ≠ c.name) = pre :=
    List.filter_eq_self.mpr fun x hx => by simpa using hpre x hx
  have h2 : (c :: rest).filter (fun x => x.name ≠ c.name) = rest := by
    rw [List.filter_cons_of_neg (by simp)]
    exact List.filter_eq_self.mpr fun x hx => by simpa using hrest x hx
  rw [h1, h2]

theorem mapCol_append_single (pre rest : List Column) (c : Column)
    (g : Column → Column)
    (hpre : ∀ x ∈ pre, x.name ≠ c.name) (hrest : ∀ x ∈ rest, x.name ≠ c.name) :
    mapCol ⟨pre ++ c :: rest⟩ c.name g = ⟨pre ++ g c :: rest⟩ := by
  unfold mapCol
  congr 1
  rw [List.map_append]
  have h1 : pre.map (fun x => if x.name = c.name then g x else x) = pre := by
    have := List.map_congr_left
      (f := fun x => if x.name = c.name then g x else x) (g := id)
      (fun x hx => if_neg (hpre x hx))
    simpa using this
  have h2 : (c :: rest).map (fun x => if x.name = c.name then g x else x) =
      g c :: rest := by
    simp only [List.map_cons, if_pos rfl]
    congr 1
    have := List.map_congr_left
      (f := fun x => if x.name = c.name then g x else x) (g := id)
      (fun x hx => if_neg (hrest x hx))
    simpa using this
  rw [h1, h2]

theorem cleanStep_cons (pf : String → Rat) (pdt : String → Int)
    (mh : List (String × String)) (pre rest : List Column) (c : Column)
    (hpre : ∀ x ∈ pre, x.name ≠ c.name) (hrest : ∀ x ∈ rest, x.name ≠ c.name) :
    cleanStep pf pdt mh ⟨pre ++ c :: rest⟩ c.name =
      ⟨pre ++ (cleanCol pf pdt mh c).elim rest (fun c' => c' :: rest)⟩ := by
  unfold cleanStep cleanCol
  by_cases h1 : c.name ∈ mh.map Prod.fst
  · simp only [h1, not_true_eq_false, if_false, if_neg (not_not.mpr h1)]
    rw [find?_name_append pre rest c hpre]
    dsimp only
    by_cases h2 : c.dtype = Dtype.object ∧ c.name ∈ dtCols
    · rw [if_pos h2, if_pos h2, mapCol_append_single pre rest c _ hpre hrest]
      rfl
    · rw [if_neg h2, if_neg h2]
      by_cases h3 : c.dtype = Dtype.object
      · rw [if_pos h3, if_pos h3, mapCol_append_single pre rest c _ hpre hrest]
        rfl
      · rw [if_neg h3, if_neg h3, mapCol_append_single pre rest c _ hpre hrest]
        rfl
  · rw [if_pos h1, if_pos h1, dropCol_append_single pre rest c hpre hrest]
    rfl

theorem foldl_cleanStep_spec (pf : String → Rat) (pdt : String → Int)
    (mh : List (String × String)) :
    ∀ (post pre : List Column),
      ((pre ++ post).map Column.name).Nodup →
      List.foldl (cleanStep pf pdt mh) ⟨pre ++ post⟩ (post.map Column.name) =
      ⟨pre ++ post.filterMap (cleanCol pf pdt mh)⟩ := by
  intro post
  induction post with
  | nil => intro pre _; simp
  | cons c rest ih =>
      intro pre h
      have hnames :
          ((pre.map Column.name) ++ c.name :: rest.map Column.name).Nodup := by
        simpa using h
      have hpre : ∀ x ∈ pre, x.name ≠ c.name := by
        intro x hx heq
        exact List.disjoint_of_nodup_append hnames
          (List.mem_map_of_mem Column.name hx)
          (heq ▸ List.mem_cons_self c.name (rest.map Column.name))
      have hrest : ∀ x ∈ rest, x.name ≠ c.name := by
        intro x hx heq
        have h2 := (List.nodup_cons.mp hnames.of_append_right).1
        exact h2 (heq ▸ List.mem_map_of_mem Column.name hx)
      rw [List.map_cons, List.foldl_cons,
        cleanStep_cons pf pdt mh pre rest c hpre hrest]
      cases hcc : cleanCol pf pdt mh c with
      | none =>
          simp only [Option.elim]
          have hsub : List.Sublist (pre ++ rest) (pre ++ c :: rest) :=
            (List.sublist_cons_self c rest).append_left pre
          have hnd : ((pre ++ rest).map Column.name).Nodup :=
            h.sublist (hsub.map Column.name)
          rw [ih pre hnd, List.filterMap_cons_none hcc]
      | some c' =>
          have hname : c'.name = c.name :=
            cleanCol_name pf pdt mh c c' hcc
          simp only [Option.elim]
          have hnd : (((pre ++ [c']) ++ rest).map Column.name).Nodup := by
            have : ((pre ++ [c']) ++ rest).map Column.name =
                (pre.map Column.name) ++ c'.name :: rest.map Column.name := by
              simp
            rw [this, hname]
            exact hnames
          have hfold := ih (pre ++ [c']) hnd
          rw [List.append_assoc] at hfold
          simp only [List.singleton_append] at hfold
          rw [hfold, List.filterMap_cons_some hcc, List.append_assoc,
            List.singleton_append]

/-- The loop body of `clean` visits each (uniquely named) column exactly
once: the whole of `clean` is the rename followed by one `filterMap` of
the per-column action `cleanCol`. -/
theorem clean_eq_singlePass (pf : String → Rat) (pdt : String → Int)
    (df : DataFrame) (rm mh : List (String × String))
    (h : ((renameCols rm df).cols.map Column.name).Nodup) :
    clean pf pdt df rm mh =
      ⟨(renameCols rm df).cols.filterMap (cleanCol pf pdt mh)⟩ := by
  unfold clean
  have := foldl_cleanStep_spec pf pdt mh (renameCols rm df).cols [] (by simpa using h)
  simpa using this

theorem mem_mapCol (df : DataFrame) (col : String) (g : Column → Column)
    (c' : Column) (h : c' ∈ (mapCol df col g).cols) :
    ∃ c ∈ df.cols, c' = g c ∨ c' = c := by
  unfold mapCol at h
  obtain ⟨c, hc, hceq⟩ := List.mem_map.mp h
  by_cases hn : c.name = col
  · exact ⟨c, hc, Or.inl (by rw [← hceq, if_pos hn])⟩
  · exact ⟨c, hc, Or.inr (by rw [← hceq, if_neg hn])⟩

theorem numericClean_vals (pf : String → Rat) (c : Column) :
    ∃ f, (numericClean pf c).vals = c.vals.map f := by
  simp only [numericClean]
  split
  · split
    · refine ⟨fun v => fillNeg1Val Dtype.float32 (castFloatVal pf (castInt32Val v)), ?_⟩
      dsimp only
      rw [List.map_map, List.map_map]
      rfl
    · refine ⟨fun v => fillNeg1Val Dtype.int32 (castInt32Val v), ?_⟩
      dsimp only
      rw [List.map_map]
      rfl
  · split
    · refine ⟨fun v => fillNeg1Val Dtype.float32 (castFloatVal pf v), ?_⟩
      dsimp only
      rw [List.map_map]
      rfl
    · exact ⟨fillNeg1Val c.dtype, rfl⟩

theorem cleanStep_vals (pf : String → Rat) (pdt : String → Int)
    (mh : List (String × String)) (df : DataFrame) (col : String)
    (c' : Column) (h : c' ∈ (cleanStep pf pdt mh df col).cols) :
    ∃ c ∈ df.cols, ∃ f, c'.vals = c.vals.map f := by
  unfold cleanStep at h
  split at h
  · unfold dropCol at h
    simp only [List.mem_filter] at h
    exact ⟨c', h.1, id, by simp⟩
  · split at h
    · exact ⟨c', h, id, by simp⟩
    · split at h
      · obtain ⟨c0, hc0, hor⟩ := mem_mapCol _ _ _ _ h
        cases hor with
        | inl he => exact ⟨c0, hc0, castDatetimeVal pdt, by rw [he]; rfl⟩
        | inr he => exact ⟨c0, hc0, id, by rw [he]; simp⟩
      · split at h
        · obtain ⟨c0, hc0, hor⟩ := mem_mapCol _ _ _ _ h
          cases hor with
          | inl he => exact ⟨c0, hc0, castFloatVal pf, by rw [he]; rfl⟩
          | inr he => exact ⟨c0, hc0, id, by rw [he]; simp⟩
        · obtain ⟨c0, hc0, hor⟩ := mem_mapCol _ _ _ _ h
          cases hor with
          | inl he =>
              obtain ⟨f, hf⟩ := numericClean_vals pf c0
              exact ⟨c0, hc0, f, by rw [he, hf]⟩
          | inr he => exact ⟨c0, hc0, id, by rw [he]; simp⟩

theorem foldl_cleanStep_vals (pf : String → Rat) (pdt : String → Int)
    (mh : List (String × String)) :
    ∀ (names : List String) (df : DataFrame) (c' : Column),
      c' ∈ (List.foldl (cleanStep pf pdt mh) df names).cols →
      ∃ c ∈ df.cols, ∃ f, c'.vals = c.vals.map f := by
  intro names
  induction names with
  | nil => intro df c' h; exact ⟨c', h, id, by simp⟩
  | cons n t ih =>
      intro df c' h
      rw [List.foldl_cons] at h
      obtain ⟨c1, hc1, f1, hf1⟩ := ih (cleanStep pf pdt mh df n) c' h
      obtain ⟨c0, hc0, f2, hf2⟩ := cleanStep_vals pf pdt mh df n c1 hc1
      exact ⟨c0, hc0, f1 ∘ f2, by rw [hf1, hf2, List.map_map]⟩

theorem find?_filterMap_cleanCol (pf : String → Rat) (pdt : String → Int)
    (mh : List (String × String)) :
    ∀ (cols : List Column) (c c' : Column),
      (cols.map Column.name).Nodup → c ∈ cols →
      cleanCol pf pdt mh c = some c' →
      (cols.filterMap (cleanCol pf pdt mh)).find? (fun x => x.name = c.name) =
        some c' := by
  intro cols
  induction cols with
  | nil => intro c c' _ hc; cases hc
  | cons a t ih =>
      intro c c' hnd hc hcc
      rw [List.map_cons] at hnd
      have hnda := List.nodup_cons.mp hnd
      rcases List.mem_cons.mp hc with rfl | hct
      · rw [List.filterMap_cons_some hcc,
          List.find?_cons_of_pos _ (by simp [cleanCol_name pf pdt mh c c' hcc])]
      · have hanec : a.name ≠ c.name := fun hh =>
          hnda.1 (hh ▸ List.mem_map_of_mem Column.name hct)
        cases hca : cleanCol pf pdt mh a with
        | none =>
            rw [List.filterMap_cons_none hca]
            exact ih c c' hnda.2 hct hcc
        | some a' =>
            rw [List.filterMap_cons_some hca, List.find?_cons_of_neg _ (by
              simp [cleanCol_name pf pdt mh a a' hca, hanec])]
            exact ih c c' hnda.2 hct hcc

theorem mem_survivingIdxs (df : DataFrame) (i : Nat) :
    i ∈ survivingIdxs df ↔ i < rowCount df ∧ keepRow df i = true := by
  simp [survivingIdxs, List.mem_filter, List.mem_range]

theorem between_iff (v : Value) (lo hi : Rat) :
    (valGtB v lo = true ∧ valLtB v hi = true) ↔ strictlyBetween v lo hi := by
  cases v <;>
    simp [valGtB, valLtB, numVal, strictlyBetween]

theorem queryPred_iff (g : String → Value) :
    queryPred g = true ↔
      strictlyBetween (g "fare_amount") 0 500 ∧
      strictlyBetween (g "passenger_count") 0 6 ∧
      strictlyBetween (g "pickup_longitude") (-75) (-73) ∧
      strictlyBetween (g "dropoff_longitude") (-75) (-73) ∧
      strictlyBetween (g "pickup_latitude") 40 42 ∧
      strictlyBetween (g "dropoff_latitude") 40 42 := by
  simp only [queryPred, query_frags, List.all_cons, List.all_nil, Bool.and_true,
    Bool.and_eq_true, between_iff]

theorem fillNeg1Val_ne_null (dt : Dtype) (v : Value) :
    fillNeg1Val dt v ≠ Value.null := by
  unfold fillNeg1Val
  split
  · cases dt <;> simp
  · assumption

theorem numericClean_dtype (pf : String → Rat) (c : Column) :
    (numericClean pf c).dtype =
      (if pyContains "int" (dtypeStr c.dtype) = true then Dtype.int32
       else if pyContains "float" (dtypeStr c.dtype) = true then Dtype.float32
       else c.dtype) := by
  simp only [numericClean]
  split
  · dsimp only
    rw [if_neg (by decide : ¬ pyContains "float" (dtypeStr Dtype.int32) = true)]
  · split <;> rfl

theorem numericClean_null_at (pf : String → Rat) (c : Column) (i : Nat)
    (hdt : c.dtype = Dtype.int64 ∨ c.dtype = Dtype.int32 ∨
      c.dtype = Dtype.float64 ∨ c.dtype = Dtype.float32)
    (hnull : c.vals[i]? = some Value.null) :
    (numericClean pf c).vals[i]? = some (Value.int (-1)) ∨
    (numericClean pf c).vals[i]? = some (Value.float (-1)) := by
  rcases hdt with h | h | h | h
  · refine Or.inl ?_
    simp only [numericClean, h,
      show pyContains "int" (dtypeStr Dtype.int64) = true from rfl,
      show pyContains "float" (dtypeStr Dtype.int32) = false from rfl,
      if_true, if_false, Bool.false_eq_true]
    simp [List.getElem?_map, hnull, castInt32Val, fillNeg1Val]
  · refine Or.inl ?_
    simp only [numericClean, h,
      show pyContains "int" (dtypeStr Dtype.int32) = true from rfl,
      show pyContains "float" (dtypeStr Dtype.int32) = false from rfl,
      if_true, if_false, Bool.false_eq_true]
    simp [List.getElem?_map, hnull, castInt32Val, fillNeg1Val]
  · refine Or.inr ?_
    simp only [numericClean, h,
      show pyContains "int" (dtypeStr Dtype.float64) = false from rfl,
      show pyContains "float" (dtypeStr Dtype.float64) = true from rfl,
      if_true, if_false, Bool.false_eq_true]
    simp [List.getElem?_map, hnull, castFloatVal, fillNeg1Val]
  · refine Or.inr ?_
    simp only [numericClean, h,
      show pyContains "int" (dtypeStr Dtype.float32) = false from rfl,
      show pyContains "float" (dtypeStr Dtype.float32) = true from rfl,
      if_true, if_false, Bool.false_eq_true]
    simp [List.getElem?_map, hnull, castFloatVal, fillNeg1Val]

/-! ### Concrete instances used to witness the theorems -/

/-- A small concrete dataframe exercising every branch of `clean`. -/
def sampleDf : DataFrame :=
  ⟨[⟨" RatecodeID ", Dtype.object, [Value.str "1", Value.null]⟩,
    ⟨"junk", Dtype.int64, [Value.int 5, Value.int 6]⟩,
    ⟨"Fare_Amount", Dtype.float64, [Value.null, Value.float 3]⟩,
    ⟨"passenger_count", Dtype.int64, [Value.null, Value.int 2]⟩]⟩

/-- An object-dtype `passenger_count` column: `clean` casts it to float32
although `must_haves` lists int32 for it. -/
def c3df : DataFrame :=
  ⟨[⟨"passenger_count", Dtype.object, [Value.str "2"]⟩]⟩

/-- An object-dtype `fare_amount` column holding a missing value: the
string branch of `clean` never fills nulls. -/
def c4df : DataFrame :=
  ⟨[⟨"fare_amount", Dtype.object, [Value.null]⟩]⟩

/-- Concrete feature data for the notebook-1 dataflow. -/
def X0 : List Nat := [0, 1, 2, 3, 4, 5, 6, 7, 8, 9]

/-- Concrete label data for the notebook-1 dataflow. -/
def y0 : List Nat := [10, 11, 12, 13, 14, 15, 16, 17, 18, 19]

/-! ### The claims -/

/-- C1: a row of the cleaned taxi dataframe survives the
`taxi_df.query(' and '.join(query_frags))` step iff `fare_amount` lies
strictly between 0 and 500, `passenger_count` strictly between 0 and 6,
the longitudes strictly between -75 and -73, and the latitudes strictly
between 40 and 42; any row failing one of the range predicates (including
by holding a missing value) is dropped. -/
theorem taxi_query_filter_iff (pf : String → Rat) (pdt : String → Int)
    (df0 : DataFrame) (i : Nat) :
    i ∈ survivingIdxs (clean pf pdt df0 remap must_haves) ↔
      i < rowCount (clean pf pdt df0 remap must_haves) ∧
      (strictlyBetween (getCell (clean pf pdt df0 remap must_haves) "fare_amount" i) 0 500 ∧
       strictlyBetween (getCell (clean pf pdt df0 remap must_haves) "passenger_count" i) 0 6 ∧
       strictlyBetween (getCell (clean pf pdt df0 remap must_haves) "pickup_longitude" i) (-75) (-73) ∧
       strictlyBetween (getCell (clean pf pdt df0 remap must_haves) "dropoff_longitude" i) (-75) (-73) ∧
       strictlyBetween (getCell (clean pf pdt df0 remap must_haves) "pickup_latitude" i) 40 42 ∧
       strictlyBetween (getCell (clean pf pdt df0 remap must_haves) "dropoff_latitude" i) 40 42) := by
  rw [mem_survivingIdxs]
  refine and_congr Iff.rfl ?_
  unfold keepRow
  exact queryPred_iff _

/-- C2: every column of `clean(df_part, remap, must_haves)` is named by a
key of `must_haves`, and every column whose normalized, remapped name is
not such a key is dropped. -/
theorem clean_drops_non_must_haves (pf : String → Rat) (pdt : String → Int)
    (df : DataFrame)
    (h : ((renameCols remap df).cols.map Column.name).Nodup) :
    (∀ c' ∈ (clean pf pdt df remap must_haves).cols,
        c'.name ∈ must_haves.map Prod.fst) ∧
    (∀ c ∈ df.cols,
        applyRemap remap (normalizeName c.name) ∉ must_haves.map Prod.fst →
        ∀ c' ∈ (clean pf pdt df remap must_haves).cols,
          c'.name ≠ applyRemap remap (normalizeName c.name)) := by
  have hsp := clean_eq_singlePass pf pdt df remap must_haves h
  have key : ∀ c' ∈ (clean pf pdt df remap must_haves).cols,
      c'.name ∈ must_haves.map Prod.fst := by
    intro c' hc'
    rw [hsp] at hc'
    obtain ⟨c, _, hcc⟩ := List.mem_filterMap.mp hc'
    rw [cleanCol_name pf pdt must_haves c c' hcc]
    exact cleanCol_mem_keys pf pdt must_haves c c' hcc
  refine ⟨key, ?_⟩
  intro c _ hnot c' hc' heq
  exact hnot (heq ▸ key c' hc')

theorem clean_drops_non_must_haves_witness :
    (Column.mk "rate_code" Dtype.float32 [Value.float 0, Value.null]).name ∈
      must_haves.map Prod.fst :=
  (clean_drops_non_must_haves pf0 pdt0 sampleDf (by decide)).1 _ (by decide)

/-- C3 counterexample: the claim that every retained column ends up with
the exact dtype listed in `must_haves` fails: an object-dtype
`passenger_count` column is cast to float32 although `must_haves` lists
int32 for it. -/
theorem clean_dtype_mismatch_cex :
    (clean pf0 pdt0 c3df remap must_haves).cols =
      [⟨"passenger_count", Dtype.float32, [Value.float 0]⟩] ∧
    must_haves.lookup "passenger_count" = some "int32" ∧
    dtypeStr Dtype.float32 ≠ "int32" := by decide

/-- C3 (amended): the per-branch typing rules hold as stated — an
object-dtype `pickup_datetime`/`dropoff_datetime` column becomes
datetime64[ms], any other object-dtype column becomes float32, an
integer-dtype column becomes int32, and a float-dtype column becomes
float32 — so every retained column carries a 32-bit or datetime64[ms]
dtype; but that dtype matches the `must_haves` entry only when the
incoming dtype kind agrees with the listed one. -/
theorem clean_dtype_branch_rules (pf : String → Rat) (pdt : String → Int)
    (c c' : Column) (h : cleanCol pf pdt must_haves c = some c') :
    (c'.dtype = Dtype.datetime64ms ∨ c'.dtype = Dtype.int32 ∨
      c'.dtype = Dtype.float32) ∧
    (c.dtype = Dtype.object → c.name ∈ dtCols → c'.dtype = Dtype.datetime64ms) ∧
    (c.dtype = Dtype.object → c.name ∉ dtCols → c'.dtype = Dtype.float32) ∧
    (pyContains "int" (dtypeStr c.dtype) = true → c'.dtype = Dtype.int32) ∧
    (c.dtype ≠ Dtype.object → pyContains "int" (dtypeStr c.dtype) = false →
      pyContains "float" (dtypeStr c.dtype) = true → c'.dtype = Dtype.float32) := by
  have hkey := cleanCol_mem_keys pf pdt must_haves c c' h
  unfold cleanCol at h
  rw [if_neg (not_not.mpr hkey)] at h
  by_cases h2 : c.dtype = Dtype.object ∧ c.name ∈ dtCols
  · rw [if_pos h2] at h
    injection h with h'
    subst h'
    refine ⟨Or.inl rfl, fun _ _ => rfl, fun _ hnd => absurd h2.2 hnd, ?_,
      fun hne _ _ => absurd h2.1 hne⟩
    intro hint
    rw [h2.1] at hint
    exact absurd hint (by decide)
  · rw [if_neg h2] at h
    by_cases h3 : c.dtype = Dtype.object
    · rw [if_pos h3] at h
      injection h with h'
      subst h'
      refine ⟨Or.inr (Or.inr rfl), fun _ hin => absurd ⟨h3, hin⟩ h2,
        fun _ _ => rfl, ?_, fun hne => absurd h3 hne⟩
      intro hint
      rw [h3] at hint
      exact absurd hint (by decide)
    · rw [if_neg h3] at h
      injection h with h'
      subst h'
      refine ⟨?_, fun ho => absurd ho h3, fun ho => absurd ho h3, ?_, ?_⟩
      · rw [numericClean_dtype]
        cases hdt : c.dtype with
        | object => exact absurd hdt h3
        | int64 => exact Or.inr (Or.inl (by decide))
        | int32 => exact Or.inr (Or.inl (by decide))
        | float64 => exact Or.inr (Or.inr (by decide))
        | float32 => exact Or.inr (Or.inr (by decide))
        | datetime64ms => exact Or.inl (by decide)
      · intro hint
        rw [numericClean_dtype, if_pos hint]
      · intro _ hint hfl
        rw [numericClean_dtype, if_neg (by simp [hint]), if_pos hfl]

theorem clean_dtype_branch_rules_witness :
    (Column.mk "passenger_count" Dtype.int32 [Value.int (-1)]).dtype =
      Dtype.int32 :=
  (clean_dtype_branch_rules pf0 pdt0
    ⟨"passenger_count", Dtype.int64, [Value.null]⟩
    ⟨"passenger_count", Dtype.int32, [Value.int (-1)]⟩
    (by decide)).2.2.2.1 (by decide)

/-- C4 counterexample: the claim that no retained column of `clean`'s
result contains a null fails: an object-dtype `fare_amount` column with a
missing value is cast to float32 and keeps its null (the string branch
never calls `fillna`). -/
theorem clean_null_retained_cex :
    (clean pf0 pdt0 c4df remap must_haves).cols =
      [⟨"fare_amount", Dtype.float32, [Value.null]⟩] ∧
    ∃ c' ∈ (clean pf0 pdt0 c4df remap must_haves).cols,
      Value.null ∈ c'.vals := by decide

/-- C4 (amended): null-filling happens only in the numeric branch: every
retained column whose pre-clean dtype was not object leaves `clean` with
no null value (its nulls are filled with -1); object-dtype columns may
retain nulls. -/
theorem clean_fills_numeric_nulls (pf : String → Rat) (pdt : String → Int)
    (c c' : Column) (hdt : c.dtype ≠ Dtype.object)
    (h : cleanCol pf pdt must_haves c = some c') :
    Value.null ∉ c'.vals := by
  have hkey := cleanCol_mem_keys pf pdt must_haves c c' h
  unfold cleanCol at h
  rw [if_neg (not_not.mpr hkey), if_neg (fun hx => hdt hx.1), if_neg hdt] at h
  injection h with h'
  subst h'
  intro hmem
  simp only [numericClean] at hmem
  obtain ⟨v, _, hveq⟩ := List.mem_map.mp hmem
  exact fillNeg1Val_ne_null _ v hveq

theorem clean_fills_numeric_nulls_witness :
    Value.null ∉ (Column.mk "passenger_count" Dtype.int32 [Value.int (-1)]).vals :=
  clean_fills_numeric_nulls pf0 pdt0
    ⟨"passenger_count", Dtype.int64, [Value.null]⟩ _ (by decide) (by decide)

/-- C5 (code bug): the two cells after `train_test_split` reassign
`X_train = X.persist()`, `X_test = X.persist()`, `y_train = y.persist()`,
`y_test = y.persist()`, discarding the 80/20 split: whatever the split
returns, the data handed to `DaskDMatrix` (for both training and
evaluation) is the full `(X, y)` — which differs from the split's
training portion on any concrete dataset. -/
theorem nb1_trains_on_full_data :
    (∀ (tts : List Nat → List Nat → List Nat × List Nat × List Nat × List Nat)
       (X y : List Nat), nb1TrainTestData tts X y = ((X, y), (X, y))) ∧
    (tts80 X0 y0).1 ≠ X0 ∧
    (nb1TrainTestData tts80 X0 y0).1.1 = X0 :=
  ⟨fun _ _ _ => rfl, by decide, by decide⟩

/-- C6: notebook 2 performs its SDK calls in the fixed order upload the
model, create the endpoint, deploy the model to the endpoint, then issue
the sample rawPredict request; every step comes after all steps it
depends on. -/
theorem notebook2_step_order :
    notebook2Steps = [VertexStep.modelUpload, VertexStep.endpointCreate,
      VertexStep.modelDeploy, VertexStep.rawPredictRequest] ∧
    (∀ s ∈ notebook2Steps, ∀ d ∈ stepDeps s,
      notebook2Steps.indexOf d < notebook2Steps.indexOf s) :=
  ⟨rfl, by decide⟩

theorem notebook2_step_order_witness :
    notebook2Steps.indexOf VertexStep.endpointCreate <
      notebook2Steps.indexOf VertexStep.modelDeploy :=
  notebook2_step_order.2 VertexStep.modelDeploy (by decide)
    VertexStep.endpointCreate (by decide)

/-- C7: `clean` is a terminating single pass over the column list: under
unique (post-rename) column names it equals the rename followed by one
`filterMap` of the total per-column action `cleanCol`, which handles each
column in exactly one of the four branches and always returns. -/
theorem clean_single_pass_total (pf : String → Rat) (pdt : String → Int)
    (df : DataFrame) (rm mh : List (String × String))
    (h : ((renameCols rm df).cols.map Column.name).Nodup) :
    clean pf pdt df rm mh =
      ⟨(renameCols rm df).cols.filterMap (cleanCol pf pdt mh)⟩ :=
  clean_eq_singlePass pf pdt df rm mh h

theorem clean_single_pass_total_witness :
    clean pf0 pdt0 sampleDf remap must_haves =
      ⟨(renameCols remap sampleDf).cols.filterMap (cleanCol pf0 pdt0 must_haves)⟩ :=
  clean_single_pass_total pf0 pdt0 sampleDf remap must_haves (by decide)

/-- C8: `clean` never changes the set of rows: every column of its result
is obtained from a column of the input by a per-cell map, so it has the
same number of cells in the same order; rows are removed only by the
separate query step. -/
theorem clean_preserves_rows (pf : String → Rat) (pdt : String → Int)
    (df : DataFrame) (rm mh : List (String × String)) (c' : Column)
    (h : c' ∈ (clean pf pdt df rm mh).cols) :
    ∃ c ∈ df.cols, c'.vals.length = c.vals.length ∧
      ∃ f, c'.vals = c.vals.map f := by
  simp only [clean] at h
  obtain ⟨c1, hc1, f1, hf1⟩ := foldl_cleanStep_vals pf pdt mh _ _ c' h
  simp only [renameCols, List.mem_map] at hc1
  obtain ⟨c0, hc0, hc0eq⟩ := hc1
  refine ⟨c0, hc0, ?_, f1, ?_⟩
  · rw [hf1, ← hc0eq]
    simp
  · rw [hf1, ← hc0eq]

theorem clean_preserves_rows_witness :
    ∃ c ∈ sampleDf.cols,
      (Column.mk "rate_code" Dtype.float32 [Value.float 0, Value.null]).vals.length
        = c.vals.length ∧
      ∃ f, (Column.mk "rate_code" Dtype.float32 [Value.float 0, Value.null]).vals
        = c.vals.map f :=
  clean_preserves_rows pf0 pdt0 sampleDf remap must_haves _ (by decide)

/-- C9: `clean` normalizes every column label by stripping surrounding
whitespace and lowercasing before applying `remap`: the final label of a
column named `s` is `applyRemap remap (normalizeName s)`, so the static
renaming is case- and whitespace-insensitive and a key such as
`ratecodeid` matches any label whose stripped, lowercased form equals
it. -/
theorem clean_normalizes_names (df : DataFrame) :
    ((renameCols remap df).cols.map Column.name =
      df.cols.map fun c => applyRemap remap (normalizeName c.name)) ∧
    (∀ s : String, normalizeName s = "ratecodeid" →
      applyRemap remap (normalizeName s) = "rate_code") := by
  constructor
  · simp [renameCols]
  · intro s hs
    rw [hs]
    decide

theorem clean_normalizes_names_witness :
    applyRemap remap (normalizeName " RatecodeID ") = "rate_code" :=
  (clean_normalizes_names ⟨[]⟩).2 " RatecodeID " (by decide)

/-- C10: a missing `passenger_count` or `fare_amount` value in a column
that arrives with a numeric (non-object) dtype is replaced by the sentinel
-1 by `clean`, and the query filter (`passenger_count > 0`,
`fare_amount > 0`) then drops that row, so it never reaches the training
dataframe. -/
theorem null_numeric_row_dropped (pf : String → Rat) (pdt : String → Int)
    (df : DataFrame) (i : Nat) (c : Column)
    (hnd : ((renameCols remap df).cols.map Column.name).Nodup)
    (hc : c ∈ (renameCols remap df).cols)
    (hname : c.name = "passenger_count" ∨ c.name = "fare_amount")
    (hdt : c.dtype = Dtype.int64 ∨ c.dtype = Dtype.int32 ∨
      c.dtype = Dtype.float64 ∨ c.dtype = Dtype.float32)
    (hnull : c.vals[i]? = some Value.null) :
    (getCell (clean pf pdt df remap must_haves) c.name i = Value.int (-1) ∨
     getCell (clean pf pdt df remap must_haves) c.name i = Value.float (-1)) ∧
    i ∉ survivingIdxs (clean pf pdt df remap must_haves) := by
  have hobj : c.dtype ≠ Dtype.object := by
    rcases hdt with h | h | h | h <;> simp [h]
  have hkey : c.name ∈ must_haves.map Prod.fst := by
    rcases hname with h | h <;> rw [h] <;> decide
  have hcc : cleanCol pf pdt must_haves c = some (numericClean pf c) := by
    unfold cleanCol
    rw [if_neg (not_not.mpr hkey), if_neg (fun hx => hobj hx.1), if_neg hobj]
  have hfind : (clean pf pdt df remap must_haves).cols.find?
      (fun x => x.name = c.name) = some (numericClean pf c) := by
    rw [clean_eq_singlePass pf pdt df remap must_haves hnd]
    exact find?_filterMap_cleanCol pf pdt must_haves _ c _ hnd hc hcc
  have hatI := numericClean_null_at pf c i hdt hnull
  have hcell :
      getCell (clean pf pdt df remap must_haves) c.name i = Value.int (-1) ∨
      getCell (clean pf pdt df remap must_haves) c.name i = Value.float (-1) := by
    unfold getCell
    rw [hfind]
    rcases hatI with ha | ha
    · exact Or.inl (by simp [List.getD, ha])
    · exact Or.inr (by simp [List.getD, ha])
  refine ⟨hcell, ?_⟩
  intro hmem
  rw [mem_survivingIdxs] at hmem
  have hkeep := hmem.2
  unfold keepRow queryPred query_frags at hkeep
  simp only [List.all_cons, List.all_nil, Bool.and_true, Bool.and_eq_true] at hkeep
  rcases hname with hn | hn
  · have h1 := hkeep.2.1.1
    rw [← hn] at h1
    rcases hcell with he | he <;> rw [he] at h1 <;> exact absurd h1 (by decide)
  · have h1 := hkeep.1.1
    rw [← hn] at h1
    rcases hcell with he | he <;> rw [he] at h1 <;> exact absurd h1 (by decide)

theorem null_numeric_row_dropped_witness :
    (getCell (clean pf0 pdt0 sampleDf remap must_haves) "passenger_count" 0 =
        Value.int (-1) ∨
     getCell (clean pf0 pdt0 sampleDf remap must_haves) "passenger_count" 0 =
        Value.float (-1)) ∧
    0 ∉ survivingIdxs (clean pf0 pdt0 sampleDf remap must_haves) :=
  null_numeric_row_dropped pf0 pdt0 sampleDf 0
    ⟨"passenger_count", Dtype.int64, [Value.null, Value.int 2]⟩
    (by decide) (by decide) (by decide) (by decide) (by decide)
